import Mathlib

/-!
Verification of the OSRS Herblore scheduling runner.

Shallow embedding of `scripts/run_scheduler.py`.

Modelling conventions:
* Python floats are embedded as rationals (`ℚ`): every numeric value the
  program manipulates is produced by finite arithmetic on finite inputs, and
  the exactness claims of the design document are about real-number values.
* Python `None` / JSON `null`, absent dictionary keys, and fallible
  computations are embedded as `Option`.
* The price dictionary `Dict[str, float]` is embedded as an association list
  with last-write-wins semantics: insertion conses in front and lookup finds
  the first (most recent) binding, matching `d[k] = v` / `d.get(k)` / `k in d`.
* The human-readable invalidity reason strings are embedded as an inductive
  type `Reason` with one constructor per distinct source string (the item-name
  parameter of the two price-reason strings is kept); this is a
  constructor-for-string bijection, so list membership and counting agree with
  the Python lists of strings.
-/

namespace Scheduler

/-! ## Locked engine constants (source lines 31-41) -/

def GE_TAX : ℚ := 2 / 100

def TAX_MULTIPLIER : ℚ := 1 - GE_TAX

def AMULET_BONUS_DOSES : ℚ := 15 / 100

def GOGGLES_SECONDARY_MULT : ℚ := 9 / 10

def ALERT_GP_PER_HOUR : ℚ := 3000000

def ALERT_XP_PER_HOUR : ℚ := 250000

/-! ## Raw dynamic values and the numeric normalizer (source lines 50-79) -/

/-- A raw dynamically-typed value as read from JSON catalog data.
`null` is Python `None` (also used for an absent dictionary key),
`num` covers Python `int`/`float` (and `bool`, which Python treats as the
ints 1/0 under `isinstance(value, (int, float))`), `str` is a string and
`other` stands for any other runtime value (lists, dicts), which the
numeric normalizer rejects. -/
inductive RawValue where
  | null
  | num (q : ℚ)
  | str (s : String)
  | other
deriving DecidableEq, Repr

/-- Python `s.lower()`.  The item names the program handles are ASCII, where
`Char.toLower` agrees with the Python method. -/
def lowerStr (s : String) : String :=
  String.mk (s.data.map Char.toLower)

/-- `is_marker_missing` restricted to strings: the two sentinel prefixes
(`value.startswith(...)`, modelled on the character list). -/
def isMarkerStr (s : String) : Bool :=
  List.isPrefixOf ("__MISSING__").data s.data ||
    List.isPrefixOf ("__OCR_UNCERTAIN__").data s.data

/-- `is_marker_missing(value)` (source lines 50-55): `None`, or a string
starting with `__MISSING__` or `__OCR_UNCERTAIN__`. -/
def is_marker_missing : RawValue → Bool
  | .null => true
  | .str s => isMarkerStr s
  | _ => false

/-- `is_marker_missing` applied to an optional string field
(`None`/absent key ↦ `none`). -/
def isMissingName : Option String → Bool
  | none => true
  | some s => isMarkerStr s

/-- All characters are decimal digits. -/
def allDigits (cs : List Char) : Bool :=
  cs.all (fun c => c.isDigit)

/-- Numeric value of a digit string (most significant first). -/
def natOfDigits (cs : List Char) : ℕ :=
  cs.foldl (fun a c => a * 10 + (c.toNat - 48)) 0

/-- Model of the Python builtin `float(s)` on its finite decimal core:
an optional sign followed by decimal digits with at most one decimal point
and at least one digit.  (Exponent notation, underscores and the non-finite
spellings `inf`/`nan` are outside the rational embedding and are not
exercised by the program data.) -/
def parseFloat? (s : String) : Option ℚ :=
  let cs := s.data
  let signAndRest : ℚ × List Char :=
    match cs with
    | '-' :: t => (-1, t)
    | '+' :: t => (1, t)
    | t => (1, t)
  let sign := signAndRest.1
  let rest := signAndRest.2
  let intPart := rest.takeWhile (fun c => c ≠ '.')
  match rest.dropWhile (fun c => c ≠ '.') with
  | [] =>
    if intPart ≠ [] && allDigits intPart then
      some (sign * (natOfDigits intPart : ℚ))
    else none
  | _ :: fracPart =>
    if fracPart.contains '.' then none
    else if (intPart ≠ [] || fracPart ≠ []) && allDigits intPart && allDigits fracPart then
      some (sign * ((natOfDigits intPart : ℚ) +
        (natOfDigits fracPart : ℚ) / (10 ^ fracPart.length)))
    else none

/-- `value.replace(",", "")`: strip every comma. -/
def stripCommas (s : String) : String :=
  String.mk (s.data.filter (fun c => c ≠ ','))

/-- `safe_float(value)` (source lines 58-69). -/
def safe_float (value : RawValue) : Option ℚ :=
  if is_marker_missing value then none
  else
    match value with
    | .num q => some q
    | .str s => parseFloat? (stripCommas s)
    | _ => none

/-- Python `int(f)`: truncation toward zero of a (finite) float. -/
def truncQ (q : ℚ) : ℤ :=
  if 0 ≤ q then ⌊q⌋ else ⌈q⌉

/-- `safe_int(value)` (source lines 72-79); the `int(f)` call cannot fail on a
finite float, so the inner try/except never fires in the rational embedding. -/
def safe_int (value : RawValue) : Option ℤ :=
  (safe_float value).map truncQ

/-! ## The price index (source lines 89-156) -/

/-- `Dict[str, float]`, newest binding first. -/
abbrev PriceIndex := List (String × ℚ)

/-- `d.get(k)`: value of the most recent binding of `k`, if any. -/
def lookupPrice (idx : PriceIndex) (k : String) : Option ℚ :=
  (idx.find? (fun kv => kv.1 = k)).map (fun kv => kv.2)

/-- Python `k in d`. -/
def hasKey (idx : PriceIndex) (k : String) : Bool :=
  idx.any (fun kv => kv.1 = k)

/-- `d[k] = v` (last-write-wins: the new binding shadows older ones). -/
def insertPrice (idx : PriceIndex) (k : String) (v : ℚ) : PriceIndex :=
  (k, v) :: idx

/-- `price_of(name_to_price, item_name)` (source lines 142-146).

The Python body is
`return name_to_price.get(item_name) or name_to_price.get(item_name.lower())`:
the `or` falls through to the lowercase lookup not only when the exact-case
lookup returns `None` but also when it returns the falsy float `0.0`, and
whatever the second operand evaluates to (including `None` or `0.0`) is
returned verbatim. -/
def price_of (idx : PriceIndex) (item_name : String) : Option ℚ :=
  if item_name = "" || isMarkerStr item_name then none
  else
    match lookupPrice idx item_name with
    | some p => if p = 0 then lookupPrice idx (lowerStr item_name) else some p
    | none => lookupPrice idx (lowerStr item_name)

/-- `price_per_dose_of_output` (source lines 151-156): `Price(output(4)) / 4`. -/
def price_per_dose_of_output (idx : PriceIndex) (output_item_name : String) : Option ℚ :=
  (price_of idx output_item_name).map (fun p => p / 4)

/-! ## Building the price index from the raw dump (source lines 89-139) -/

/-- A JSON value, as produced by `json.loads` on the price dump. -/
inductive JVal where
  | null
  | bool (b : Bool)
  | num (q : ℚ)
  | str (s : String)
  | arr (xs : List JVal)
  | obj (fields : List (String × JVal))

/-- `obj.get(k)` on the field list of a JSON object. -/
def jget (fields : List (String × JVal)) (k : String) : Option JVal :=
  (fields.find? (fun kv => kv.1 = k)).map (fun kv => kv.2)

/-- First candidate name field holding a string
(`name_keys = ("name", "item_name")`, source lines 111, 121-125). -/
def extractName (fields : List (String × JVal)) : Option String :=
  [("name" : String), ("item_name" : String)].findSome? fun k =>
    match jget fields k with
    | some (.str s) => some s
    | _ => none

/-- First candidate price field holding a number
(`price_keys`, source lines 112, 127-132).  A JSON `true`/`false` is a Python
`bool`, which passes `isinstance(pv, (int, float))` as 1/0. -/
def extractPrice (fields : List (String × JVal)) : Option ℚ :=
  [("price" : String), ("ge_price" : String), ("avg" : String),
   ("value" : String), ("high" : String), ("low" : String)].findSome? fun k =>
    match jget fields k with
    | some (.num q) => some q
    | some (.bool b) => some (if b then 1 else 0)
    | _ => none

/-- The containers probed in order (`items`, `data`, `prices`; source lines
100-108), falling back to the whole dump when none of the keys holds a dict. -/
def containersOf (fields : List (String × JVal)) : List (List (String × JVal)) :=
  let found := [("items" : String), ("data" : String), ("prices" : String)].filterMap fun k =>
    match jget fields k with
    | some (.obj o) => some o
    | _ => none
  if found.isEmpty then [fields] else found

/-- Every (name, price) pair successfully extracted by the loop of source
lines 114-136, in iteration order. -/
def extractedPairs (dump : JVal) : List (String × ℚ) :=
  match dump with
  | .obj fields =>
    ((containersOf fields).map fun container =>
      container.filterMap fun kv =>
        match kv.2 with
        | .obj item =>
          match extractName item, extractPrice item with
          | some name, some price => some (name, price)
          | _, _ => none
        | _ => none).flatten
  | _ => []

/-- `build_name_to_price(dump_obj)` (source lines 89-139): each extracted pair
is stored under both its original-case name and its lowercased name
(`name_to_price[name] = price; name_to_price[name.lower()] = price`). -/
def build_name_to_price (dump : JVal) : PriceIndex :=
  (extractedPairs dump).foldl
    (fun idx np => insertPrice (insertPrice idx np.1 np.2) (lowerStr np.1) np.2) []

/-! ## Material lines and material cost (source lines 159-198) -/

/-- One entry of a `BaseMaterials`/`SecondaryMaterials` array.
`itemName` is `m.get("ItemName")` (`none` for an absent key or JSON `null`;
non-string non-null names would crash the Python program on `.lower()` and
are outside the model), `quantity` is the raw `m.get("Quantity")` value, and
the two flags are the truthiness of `IsDoseScaledFromFour` and
`DoseScaledFromFourPerDose`. -/
structure MaterialLine where
  itemName : Option String := none
  quantity : RawValue := .null
  isDoseScaledFromFour : Bool := false
  doseScaledFromFourPerDose : Bool := false
deriving DecidableEq, Repr

/-- The accumulating loop of `compute_material_cost` (source lines 172-198).
The two source branches both look the item up with `price_of` and differ only
in the added contribution, so they are merged into one `price_of` match. -/
def cmcGo (idx : PriceIndex) (n : ℤ) (total : ℚ) : List MaterialLine → Option ℚ
  | [] => some total
  | m :: rest =>
    if isMissingName m.itemName || (safe_float m.quantity).isNone then none
    else
      let item := m.itemName.getD ("")
      let qty := (safe_float m.quantity).getD 0
      match price_of idx item with
      | none => none
      | some p =>
        let contrib :=
          if m.isDoseScaledFromFour || m.doseScaledFromFourPerDose then
            p / 4 * (n : ℚ) * qty
          else p * qty
        cmcGo idx n (total + contrib) rest

/-- `compute_material_cost(name_to_price, mats, recipe_type, n)` (source lines
159-198).  The `recipe_type` parameter is unused by the source body and is
omitted. -/
def compute_material_cost (idx : PriceIndex) (mats : List MaterialLine) (n : ℤ) : Option ℚ :=
  cmcGo idx n 0 mats

/-- A line on which `compute_material_cost` fails: missing/marker item name,
unparsable quantity, or `price_of` lookup returning absent. -/
def badLine (idx : PriceIndex) (m : MaterialLine) : Bool :=
  isMissingName m.itemName || (safe_float m.quantity).isNone ||
    (price_of idx (m.itemName.getD (""))).isNone

/-- The cost contribution of one (good) material line. -/
def lineContrib (idx : PriceIndex) (n : ℤ) (m : MaterialLine) : ℚ :=
  let p := (price_of idx (m.itemName.getD (""))).getD 0
  let qty := (safe_float m.quantity).getD 0
  if m.isDoseScaledFromFour || m.doseScaledFromFourPerDose then
    p / 4 * (n : ℚ) * qty
  else p * qty

/-! ## Recipes and the valuation pipeline (source lines 201-329) -/

/-- The invalidity reason strings, one constructor per distinct source string:
* `invalidMaterialsListShape` ↦ "Invalid materials list shape"
* `missingOutputItemName` ↦ "Missing OutputItemName"
* `missingInvalidN` ↦ "Missing/invalid N"
* `missingInvalidXpPerCraft` ↦ "Missing/invalid XP_per_craft"
* `missingInvalidXpPerHour` ↦ "Missing/invalid XP_per_hour"
* `missingBaseMaterialItemName` ↦ "Missing base material ItemName"
* `missingPriceForBaseMaterial item` ↦ the f-string naming `item`
* `missingSecondaryMaterialItemName` ↦ "Missing secondary material ItemName"
* `missingPriceForSecondaryMaterial item` ↦ the f-string naming `item`
* `missingPriceForBaseMaterials` ↦ "Missing price for base materials"
* `missingPriceForSecondaryMaterials` ↦ "Missing price for secondary materials"
* `missingPriceForOutputItem` ↦ "Missing price for output item" -/
inductive Reason where
  | invalidMaterialsListShape
  | missingOutputItemName
  | missingInvalidN
  | missingInvalidXpPerCraft
  | missingInvalidXpPerHour
  | missingBaseMaterialItemName
  | missingPriceForBaseMaterial (item : String)
  | missingSecondaryMaterialItemName
  | missingPriceForSecondaryMaterial (item : String)
  | missingPriceForBaseMaterials
  | missingPriceForSecondaryMaterials
  | missingPriceForOutputItem
deriving DecidableEq, Repr

/-- The value of `recipe.get("BaseMaterials") or []` (and likewise for
secondary materials): `mats l` when the field is a list of material entries
(an absent/falsy field yields `mats []`), `badShape` when the field is a
truthy non-list, which fails `isinstance(base_mats, list)`. -/
inductive MatsField where
  | mats (l : List MaterialLine)
  | badShape
deriving DecidableEq, Repr

/-- Whether the materials field fails the `isinstance(..., list)` check. -/
def isBadShape : MatsField → Bool
  | .badShape => true
  | .mats _ => false

/-- The list the Python code iterates over (`badShape` is only ever iterated
behind a guard that has already recorded a reason, so `[]` is unreachable
there). -/
def matsOf : MatsField → List MaterialLine
  | .mats l => l
  | .badShape => []

/-- A recipe catalog entry, with the fields `compute_recipe` reads.
`outputItemName` is `recipe.get("OutputItemName", "")` (`none` models a JSON
`null` stored under the key; an absent key yields the default `some ""`).
Raw numeric fields keep their dynamic type. -/
structure Recipe where
  recipeName : String := ""
  outputItemName : Option String := some ("")
  recipeType : String := ""
  nRaw : RawValue := .null
  gogglesAllowed : Bool := false
  xpPerCraftRaw : RawValue := .null
  xpPerHourRaw : RawValue := .null
  baseMaterials : MatsField := .mats []
  secondaryMaterials : MatsField := .mats []
deriving DecidableEq, Repr

/-- `n = safe_int(recipe.get("N"))` (source line 211). -/
def nOf (r : Recipe) : Option ℤ := safe_int r.nRaw

/-- `xp_per_craft = safe_float(...)` (source line 214). -/
def xpcOf (r : Recipe) : Option ℚ := safe_float r.xpPerCraftRaw

/-- `xp_per_hour = safe_float(...)` (source line 215). -/
def xphOf (r : Recipe) : Option ℚ := safe_float r.xpPerHourRaw

/-- `not isinstance(base_mats, list) or not isinstance(sec_mats, list)`. -/
def shapeBadOf (r : Recipe) : Bool :=
  isBadShape r.baseMaterials || isBadShape r.secondaryMaterials

/-- `is_marker_missing(output_item_name)`. -/
def outBadOf (r : Recipe) : Bool := isMissingName r.outputItemName

/-- `n is None or n <= 0`. -/
def nBadOf (r : Recipe) : Bool :=
  match nOf r with
  | none => true
  | some k => decide (k ≤ 0)

/-- `xp_per_craft is None or xp_per_craft <= 0`. -/
def xpcBadOf (r : Recipe) : Bool :=
  match xpcOf r with
  | none => true
  | some q => decide (q ≤ 0)

/-- `xp_per_hour is None or xp_per_hour <= 0`. -/
def xphBadOf (r : Recipe) : Bool :=
  match xphOf r with
  | none => true
  | some q => decide (q ≤ 0)

/-- The structural checks of source lines 222-241, which the source performs
twice verbatim, in the order: shape, output, shape, output, N, XP_per_craft,
XP_per_hour, N, XP_per_craft, XP_per_hour. -/
def structuralReasons (shapeBad outBad nBad xpcBad xphBad : Bool) : List Reason :=
  (cond shapeBad [.invalidMaterialsListShape] []) ++
  (cond outBad [.missingOutputItemName] []) ++
  (cond shapeBad [.invalidMaterialsListShape] []) ++
  (cond outBad [.missingOutputItemName] []) ++
  (cond nBad [.missingInvalidN] []) ++
  (cond xpcBad [.missingInvalidXpPerCraft] []) ++
  (cond xphBad [.missingInvalidXpPerHour] []) ++
  (cond nBad [.missingInvalidN] []) ++
  (cond xpcBad [.missingInvalidXpPerCraft] []) ++
  (cond xphBad [.missingInvalidXpPerHour] [])

/-- The structural reasons accumulated for a recipe. -/
def structReasonsOf (r : Recipe) : List Reason :=
  structuralReasons (shapeBadOf r) (outBadOf r) (nBadOf r) (xpcBadOf r) (xphBadOf r)

/-- The early price-existence scan of source lines 244-261: stop at the first
line with a missing/marker item name (name reason) or whose lowercased name
is not a key of the index (price reason naming the item). -/
def scanMats (idx : PriceIndex) (nameReason : Reason) (priceReason : String → Reason) :
    List MaterialLine → List Reason
  | [] => []
  | m :: rest =>
    match m.itemName with
    | none => [nameReason]
    | some item =>
      if isMarkerStr item then [nameReason]
      else if hasKey idx (lowerStr item) then
        scanMats idx nameReason priceReason rest
      else [priceReason item]

/-- All reasons accumulated before any monetary computation: the (duplicated)
structural checks, then the base-material scan (only if no reasons yet), then
the secondary-material scan (only if still no reasons). -/
def preEconReasons (idx : PriceIndex) (r : Recipe) : List Reason :=
  let r1 := structReasonsOf r
  let r2 := if r1.isEmpty then
      r1 ++ scanMats idx .missingBaseMaterialItemName .missingPriceForBaseMaterial
        (matsOf r.baseMaterials)
    else r1
  if r2.isEmpty then
    r2 ++ scanMats idx .missingSecondaryMaterialItemName .missingPriceForSecondaryMaterial
      (matsOf r.secondaryMaterials)
  else r2

/-- `expected_doses = float(n) + AMULET_BONUS_DOSES` when `n` is present
(source lines 265-267). -/
def expectedDosesOf (n : Option ℤ) : Option ℚ :=
  n.map (fun k => (k : ℚ) + AMULET_BONUS_DOSES)

/-- `base_cost` (source line 275); only evaluated when no pre-economic reason
exists, at which point `n` is a positive integer, so the `getD 0` default is
never the value actually used. -/
def baseCostOf (idx : PriceIndex) (r : Recipe) : Option ℚ :=
  compute_material_cost idx (matsOf r.baseMaterials) ((nOf r).getD 0)

/-- `secondary_cost` (source line 279). -/
def secCostOf (idx : PriceIndex) (r : Recipe) : Option ℚ :=
  compute_material_cost idx (matsOf r.secondaryMaterials) ((nOf r).getD 0)

/-- The two cost reasons of source lines 276-281, in order. -/
def costReasons (idx : PriceIndex) (r : Recipe) : List Reason :=
  (cond (baseCostOf idx r).isNone [.missingPriceForBaseMaterials] []) ++
  (cond (secCostOf idx r).isNone [.missingPriceForSecondaryMaterials] [])

/-- `total_cost` (source lines 283-285): set only when no reason has been
accumulated and both costs are present. -/
def totalCostOf (idx : PriceIndex) (r : Recipe) : Option ℚ :=
  if (costReasons idx r).isEmpty && (baseCostOf idx r).isSome && (secCostOf idx r).isSome then
    some ((baseCostOf idx r).getD 0 +
      (secCostOf idx r).getD 0 * (if r.gogglesAllowed then GOGGLES_SECONDARY_MULT else 1))
  else none

/-- `price_per_dose` (source line 292), computed behind the
`if not invalid_reasons` gate. -/
def ppdOf (idx : PriceIndex) (r : Recipe) : Option ℚ :=
  if (costReasons idx r).isEmpty then
    price_per_dose_of_output idx (r.outputItemName.getD (""))
  else none

/-- The output-price reason of source line 294. -/
def outPriceReasons (idx : PriceIndex) (r : Recipe) : List Reason :=
  if (costReasons idx r).isEmpty && (ppdOf idx r).isNone then
    [.missingPriceForOutputItem]
  else []

/-- All reasons accumulated by the economic stage (source lines 274-294),
given that no pre-economic reason existed. -/
def econReasons (idx : PriceIndex) (r : Recipe) : List Reason :=
  costReasons idx r ++ outPriceReasons idx r

/-- `revenue_before_tax = price_per_dose * expected_doses` (source line 296). -/
def revenueBeforeOf (idx : PriceIndex) (r : Recipe) : Option ℚ :=
  (ppdOf idx r).map (fun ppd => ppd * (expectedDosesOf (nOf r)).getD 0)

/-- `revenue_after_tax = revenue_before_tax * TAX_MULTIPLIER` (source line 297). -/
def revenueAfterOf (idx : PriceIndex) (r : Recipe) : Option ℚ :=
  (revenueBeforeOf idx r).map (fun rb => rb * TAX_MULTIPLIER)

/-- `profit_per_craft` (source line 305), behind the final
`if not invalid_reasons` gate. -/
def profitOf (idx : PriceIndex) (r : Recipe) : Option ℚ :=
  if (econReasons idx r).isEmpty then
    some ((revenueAfterOf idx r).getD 0 - (totalCostOf idx r).getD 0)
  else none

/-- `crafts_per_hour = xp_per_hour / xp_per_craft` (source line 306). -/
def craftsOf (idx : PriceIndex) (r : Recipe) : Option ℚ :=
  if (econReasons idx r).isEmpty then
    some ((xphOf r).getD 0 / (xpcOf r).getD 0)
  else none

/-- `gp_per_hour = profit_per_craft * crafts_per_hour` (source line 307). -/
def gpOf (idx : PriceIndex) (r : Recipe) : Option ℚ :=
  if (econReasons idx r).isEmpty then
    some (((profitOf idx r).getD 0) * ((craftsOf idx r).getD 0))
  else none

/-- The alert computation of source lines 312-314. -/
def alertOf (valid : Bool) (gp xph : Option ℚ) : Bool :=
  match valid, gp, xph with
  | true, some g, some x =>
    decide (ALERT_GP_PER_HOUR < g) && decide (ALERT_XP_PER_HOUR < x)
  | _, _, _ => false

/-- The result record of `compute_recipe` (source lines 316-329).  `isAlert`
is the `is_alert` value computed at source lines 312-314 (the Python dict
literal does not serialize it, but it is computed by the function). -/
structure EvaluatedRecipe where
  recipeName : String
  outputItemName : Option String
  recipeType : String
  n : Option ℤ
  xpPerCraft : Option ℚ
  xpPerHour : Option ℚ
  craftsPerHour : Option ℚ
  profitPerCraft : Option ℚ
  gpPerHour : Option ℚ
  valid : Bool
  invalidReasons : List Reason
  gogglesAllowed : Bool
  isAlert : Bool
deriving DecidableEq, Repr

/-- `compute_recipe(name_to_price, recipe)` (source lines 201-329). -/
def compute_recipe (idx : PriceIndex) (r : Recipe) : EvaluatedRecipe :=
  if (preEconReasons idx r).isEmpty then
    let reasons := econReasons idx r
    { recipeName := r.recipeName
      outputItemName := r.outputItemName
      recipeType := r.recipeType
      n := nOf r
      xpPerCraft := xpcOf r
      xpPerHour := xphOf r
      craftsPerHour := craftsOf idx r
      profitPerCraft := profitOf idx r
      gpPerHour := gpOf idx r
      valid := reasons.isEmpty
      invalidReasons := reasons
      gogglesAllowed := r.gogglesAllowed
      isAlert := alertOf reasons.isEmpty (gpOf idx r) (xphOf r) }
  else
    { recipeName := r.recipeName
      outputItemName := r.outputItemName
      recipeType := r.recipeType
      n := nOf r
      xpPerCraft := xpcOf r
      xpPerHour := xphOf r
      craftsPerHour := none
      profitPerCraft := none
      gpPerHour := none
      valid := false
      invalidReasons := preEconReasons idx r
      gogglesAllowed := r.gogglesAllowed
      isAlert := alertOf false none (xphOf r) }

/-! ## Ranking: TABLE A and TABLE B (source lines 431-442) -/

/-- `sort_key(r)` (source lines 432-436): the gp/h value for a valid recipe
with a numeric `gp_per_hour`, and `-inf` (here `⊥` of `WithBot ℚ`) otherwise. -/
def sort_key (e : EvaluatedRecipe) : WithBot ℚ :=
  match e.valid, e.gpPerHour with
  | true, some g => (g : WithBot ℚ)
  | _, _ => ⊥

/-- "`a` may come before `b`" for Python
`sorted(computed, key=sort_key, reverse=True)`: descending by key. -/
def keyGE (a b : EvaluatedRecipe) : Prop :=
  sort_key b ≤ sort_key a

instance : DecidableRel keyGE := fun a b =>
  inferInstanceAs (Decidable (sort_key b ≤ sort_key a))

instance : IsTotal EvaluatedRecipe keyGE :=
  ⟨fun a b => (le_total (sort_key b) (sort_key a)).imp id id⟩

instance : IsTrans EvaluatedRecipe keyGE :=
  ⟨fun _ _ _ hab hbc => le_trans hbc hab⟩

/-- `table_a = sorted(computed, key=sort_key, reverse=True)` (source line 438).
The Python sort is stable and `reverse=True` keeps equal-key elements in their
original order, which is exactly insertion sort with the reflexive
"key not smaller" relation `keyGE`. -/
def table_a (computed : List EvaluatedRecipe) : List EvaluatedRecipe :=
  computed.insertionSort keyGE

/-- The TABLE B filter (source lines 441-442): keep `r` when `r["valid"]`,
both `gp_per_hour` and `XP_per_hour` are non-`None`, and both exceed their
thresholds. -/
def tableBKeep (e : EvaluatedRecipe) : Bool :=
  e.valid && (e.gpPerHour).isSome && (e.xpPerHour).isSome &&
    decide (ALERT_GP_PER_HOUR < (e.gpPerHour).getD 0) &&
    decide (ALERT_XP_PER_HOUR < (e.xpPerHour).getD 0)

/-- `table_b` (source lines 441-442), a filter of TABLE A in the order of TABLE A. -/
def table_b (tableA : List EvaluatedRecipe) : List EvaluatedRecipe :=
  tableA.filter tableBKeep

/-- The alert predicate as the design document states it: valid, gp/h above
3,000,000 and XP/h above 250,000. -/
def claimAlert (e : EvaluatedRecipe) : Bool :=
  e.valid &&
    (match e.gpPerHour with
     | some g => decide (ALERT_GP_PER_HOUR < g)
     | none => false) &&
    (match e.xpPerHour with
     | some x => decide (ALERT_XP_PER_HOUR < x)
     | none => false)

/-! ## Discord delivery (source lines 367-403)

The network is abstracted as the responses the two possible `urlopen` calls
for one chunk would receive; everything else in `discord_post` is data-free
control flow, modelled as the trace below. -/

/-- The outcome of one `urlopen` call: a 2xx success, or an
`urllib.error.HTTPError` with its status code and, for rate-limit bodies, the
`retry_after` value parsed from the JSON body (`none` when the body is
missing, unparsable, or has no such key). -/
inductive DiscordResp where
  | success
  | httpError (code : ℕ) (retryAfter : Option ℚ)
deriving DecidableEq, Repr

/-- The wait before the retry (source lines 386-392):
`max(1, int(math.ceil(float(j.get("retry_after", 2)))))`, with the initial
default 2 kept when the body cannot be parsed. -/
def retryDelay : Option ℚ → ℤ
  | some q => max 1 ⌈q⌉
  | none => 2

/-- How the delivery of one chunk ends. -/
inductive ChunkOutcome where
  | sent
  | loggedSkip
  | crashed
deriving DecidableEq, Repr

/-- Observable trace of delivering one chunk: how many HTTP requests were
made, how long the code slept before a retry, how it ended. -/
structure ChunkTrace where
  attempts : ℕ
  sleptFor : Option ℤ
  outcome : ChunkOutcome
deriving DecidableEq, Repr

/-- One iteration of the chunk loop of `discord_post` (source lines 372-403).
`first` is the response to the initial request; `retry` is the response the
retry request would receive.  A 429 sleeps and retries once, and the retry is
*not* inside any try/except: a second error response raises out of
`discord_post`, through `main`, and aborts the process.  Any other error
response is printed and `discord_post` returns, so the run completes. -/
def post_chunk (first retry : DiscordResp) : ChunkTrace :=
  match first with
  | .success => ⟨1, none, .sent⟩
  | .httpError code ra =>
    if code = 429 then
      match retry with
      | .success => ⟨2, some (retryDelay ra), .sent⟩
      | .httpError _ _ => ⟨2, some (retryDelay ra), .crashed⟩
    else ⟨1, none, .loggedSkip⟩

/-- Whether `main` still returns exit status 0 after the chunk ends this way
(an uncaught exception propagates through `raise SystemExit(main())`). -/
def runSucceeds : ChunkOutcome → Bool
  | .crashed => false
  | _ => true

/-! ## Concrete inputs used by the claim checks -/

/-- Price index for the worked example of the design document: base material
400, secondary material 100, output `pot(4)` priced 200 (so 50 per dose). -/
def c2Index : PriceIndex :=
  [(("herb" : String), (400 : ℚ)), (("eye" : String), (100 : ℚ)),
   (("pot(4)" : String), (200 : ℚ))]

/-- The worked example recipe: `N=4`, `XP_per_craft=50`, `XP_per_hour=2000`,
one base material (cost 400), one secondary material (cost 100), no
cost-reduction tool. -/
def c2Recipe : Recipe :=
  { recipeName := "Example"
    outputItemName := some ("pot(4)")
    nRaw := .num 4
    xpPerCraftRaw := .num 50
    xpPerHourRaw := .num 2000
    baseMaterials := .mats [{ itemName := some ("herb"), quantity := .num 1 }]
    secondaryMaterials := .mats [{ itemName := some ("eye"), quantity := .num 1 }] }

unseal Rat.mul Rat.add Rat.sub Rat.inv Nat.div Nat.gcd Rat.ofScientific

/-! ## The claims -/

/-- C2: on the worked example (`N=4`, `XP_per_craft=50`, `XP_per_hour=2000`,
base cost 400, secondary cost 100, no cost-reduction tool, output price per
dose 50) the valuation yields exactly `expectedDoses=4.15`,
`revenueBeforeTax=207.5`, `revenueAfterTax=203.35`, `totalCost=500`,
`profitPerCraft=-296.65`, `craftsPerHour=40`, `gpPerHour=-11866`, a valid
result and no alert. -/
theorem C2_worked_example :
    expectedDosesOf (nOf c2Recipe) = some (4.15 : ℚ) ∧
    revenueBeforeOf c2Index c2Recipe = some (207.5 : ℚ) ∧
    revenueAfterOf c2Index c2Recipe = some (203.35 : ℚ) ∧
    totalCostOf c2Index c2Recipe = some 500 ∧
    (compute_recipe c2Index c2Recipe).profitPerCraft = some (-296.65 : ℚ) ∧
    (compute_recipe c2Index c2Recipe).craftsPerHour = some 40 ∧
    (compute_recipe c2Index c2Recipe).gpPerHour = some (-11866 : ℚ) ∧
    (compute_recipe c2Index c2Recipe).valid = true ∧
    (compute_recipe c2Index c2Recipe).isAlert = false := by
  decide

/-- C7: the numeric normalizer maps a missing value (null, or a string with a
missing-marker prefix) to absent, passes numbers through, parses any other
string after stripping commas, and maps every other value to absent; by the
rational embedding every returned number is finite. -/
theorem C7_safe_float_contract (v : RawValue) :
    (is_marker_missing v = true → safe_float v = none) ∧
    (∀ q : ℚ, v = .num q → safe_float v = some q) ∧
    (∀ s : String, v = .str s → is_marker_missing v = false →
      safe_float v = parseFloat? (stripCommas s)) ∧
    (v = .null → safe_float v = none) ∧
    (v = .other → safe_float v = none) := by
  refine ⟨?_, ?_, ?_, ?_, ?_⟩ <;> cases v <;>
    simp_all [safe_float, is_marker_missing]

/-- C7 witness: the contract applied at a thousands-separated numeric string,
a marker-prefixed string and a number. -/
theorem C7_witness :
    safe_float (.str ("1,234.5")) = parseFloat? (stripCommas ("1,234.5")) ∧
    safe_float (.str ("__MISSING__price")) = none ∧
    safe_float (.num 7) = some 7 :=
  ⟨(C7_safe_float_contract (.str ("1,234.5"))).2.2.1 ("1,234.5") rfl (by decide),
   (C7_safe_float_contract (.str ("__MISSING__price"))).1 (by decide),
   (C7_safe_float_contract (.num 7)).2.1 7 rfl⟩

/-- One step of the material-cost loop: a bad line kills the whole
computation, a good line adds its contribution to the accumulator. -/
theorem cmcGo_cons (idx : PriceIndex) (n : ℤ) (total : ℚ) (m : MaterialLine)
    (rest : List MaterialLine) :
    cmcGo idx n total (m :: rest) =
      if badLine idx m then none
      else cmcGo idx n (total + lineContrib idx n m) rest := by
  by_cases h1 : (isMissingName m.itemName || (safe_float m.quantity).isNone) = true
  · simp [cmcGo, badLine, h1]
  · have h1f : (isMissingName m.itemName || (safe_float m.quantity).isNone) = false :=
      Bool.eq_false_iff.mpr h1
    cases hpp : price_of idx (m.itemName.getD ("")) with
    | none => simp [cmcGo, badLine, h1f, hpp]
    | some p => simp [cmcGo, badLine, lineContrib, h1f, hpp]

/-- A bad line anywhere makes the loop return absent, from any accumulator. -/
theorem cmcGo_eq_none (idx : PriceIndex) (n : ℤ) (mats : List MaterialLine)
    (h : ∃ m ∈ mats, badLine idx m = true) :
    ∀ total : ℚ, cmcGo idx n total mats = none := by
  induction mats with
  | nil => simp at h
  | cons m rest ih =>
    intro total
    rw [cmcGo_cons]
    by_cases hb : badLine idx m = true
    · simp [hb]
    · have hrest : ∃ m2 ∈ rest, badLine idx m2 = true := by
        rcases h with ⟨m2, hm2, hbad⟩
        rcases List.mem_cons.mp hm2 with rfl | h2
        · exact absurd hbad hb
        · exact ⟨m2, h2, hbad⟩
      simp only [Bool.eq_false_iff.mpr hb, if_false]
      exact ih hrest _

/-- With no bad line the loop returns the accumulator plus the sum of the
per-line contributions. -/
theorem cmcGo_eq_some (idx : PriceIndex) (n : ℤ) (mats : List MaterialLine)
    (h : ∀ m ∈ mats, badLine idx m = false) :
    ∀ total : ℚ, cmcGo idx n total mats = some (total + (mats.map (lineContrib idx n)).sum) := by
  induction mats with
  | nil => simp [cmcGo]
  | cons m rest ih =>
    intro total
    rw [cmcGo_cons]
    have hb := h m (List.mem_cons_self m rest)
    simp only [hb, Bool.false_eq_true, if_false]
    rw [ih fun m2 hm2 => h m2 (List.mem_cons_of_mem _ hm2)]
    simp [add_assoc]

/-- C5: `compute_material_cost` is absent as soon as some line has a
missing/marker item name, an unparsable quantity or an absent price (never a
partial total); otherwise it is the sum of the per-line contributions, where
a dose-scaled line contributes `(price/4) * N * quantity` — on the worked
example, price 200, `N=3`, quantity 2 give exactly 300 — and a normal line
contributes `price * quantity`. -/
theorem C5_material_cost (idx : PriceIndex) (mats : List MaterialLine) (n : ℤ) :
    ((∃ m ∈ mats, badLine idx m = true) → compute_material_cost idx mats n = none) ∧
    ((∀ m ∈ mats, badLine idx m = false) →
      compute_material_cost idx mats n = some ((mats.map (lineContrib idx n)).sum)) ∧
    compute_material_cost [(("pot4" : String), (200 : ℚ))]
      [{ itemName := some ("pot4"), quantity := .num 2, isDoseScaledFromFour := true }] 3 =
        some 300 := by
  refine ⟨fun h => cmcGo_eq_none idx n mats h 0, fun h => ?_, by decide⟩
  rw [compute_material_cost, cmcGo_eq_some idx n mats h 0, zero_add]

/-- C5 witness: the fail-fast part applied to a list with a missing item
name, and the sum part applied to the worked dose-scaled example. -/
theorem C5_witness :
    compute_material_cost [] [{ itemName := none, quantity := .num 1 }] 1 = none ∧
    compute_material_cost [(("pot4" : String), (200 : ℚ))]
      [{ itemName := some ("pot4"), quantity := .num 2, isDoseScaledFromFour := true }] 3 =
      some (([({ itemName := some ("pot4"), quantity := .num 2,
                 isDoseScaledFromFour := true } : MaterialLine)].map
            (lineContrib [(("pot4" : String), (200 : ℚ))] 3)).sum) :=
  ⟨(C5_material_cost [] [{ itemName := none, quantity := .num 1 }] 1).1
      ⟨_, List.mem_singleton_self _, by decide⟩,
   (C5_material_cost [(("pot4" : String), (200 : ℚ))]
      [{ itemName := some ("pot4"), quantity := .num 2, isDoseScaledFromFour := true }] 3).2.1
      (by decide)⟩

/-- C6 counterexample: in the index `{"X": 0.0}` the exact-case key `"X"` is
present and the name is neither empty nor a marker, so the claim demands the
price 0 of the exact-case entry; but the Python `or` treats the looked-up `0.0` as
falsy, falls through to the (absent) lowercase key, and `price_of` returns
absent. -/
theorem C6_counterexample :
    lookupPrice [(("X" : String), (0 : ℚ))] "X" = some 0 ∧
    ("X" : String) ≠ "" ∧ isMarkerStr ("X") = false ∧
    price_of [(("X" : String), (0 : ℚ))] "X" = none := by
  decide

/-- C6 amended: `price_of` returns absent iff the name is empty or a missing
marker, or the exact-case lookup yields no entry or a zero price while the
lowercase lookup yields no entry; otherwise it returns the exact-case price
when that entry exists with a nonzero price, and the lowercase price when
the exact-case entry is absent or zero (a consequence of the falsy `or`
chaining in Python). -/
theorem C6_price_of_amended (idx : PriceIndex) (name : String) :
    (price_of idx name = none ↔
      ((name = "" ∨ isMarkerStr name = true) ∨
        ((lookupPrice idx name = none ∨ lookupPrice idx name = some 0) ∧
          lookupPrice idx (lowerStr name) = none))) ∧
    (∀ p : ℚ, price_of idx name = some p →
      (¬ name = "" ∧ isMarkerStr name = false) ∧
      ((lookupPrice idx name = some p ∧ p ≠ 0) ∨
        ((lookupPrice idx name = none ∨ lookupPrice idx name = some 0) ∧
          lookupPrice idx (lowerStr name) = some p))) := by
  by_cases h1 : name = "" ∨ isMarkerStr name = true
  · have hb : (decide (name = "") || isMarkerStr name) = true := by
      rcases h1 with h | h <;> simp [h]
    constructor
    · rw [price_of, if_pos hb]
      exact iff_of_true rfl (Or.inl h1)
    · intro p hp
      rw [price_of, if_pos hb] at hp
      exact absurd hp (by simp)
  · have he : ¬ name = "" := fun h => h1 (Or.inl h)
    have hm : isMarkerStr name = false :=
      Bool.eq_false_iff.mpr fun h => h1 (Or.inr h)
    have hb : (decide (name = "") || isMarkerStr name) = false := by
      simp [he, hm]
    rw [price_of, if_neg (by simp [hb])]
    cases hl : lookupPrice idx name with
    | none =>
      cases hll : lookupPrice idx (lowerStr name) with
      | none => simp [he, hm]
      | some q =>
        constructor
        · simp [h1]
        · intro p hp
          refine ⟨⟨he, hm⟩, Or.inr ⟨Or.inl rfl, hp⟩⟩
    | some q =>
      dsimp only
      by_cases hq : q = 0
      · subst hq
        cases hll : lookupPrice idx (lowerStr name) with
        | none => simp [h1]
        | some w =>
          constructor
          · simp [h1]
          · intro p hp
            refine ⟨⟨he, hm⟩, Or.inr ⟨Or.inr rfl, hp⟩⟩
      · rw [if_neg hq]
        constructor
        · simp [h1, hl, hq]
        · intro p hp
          rcases Option.some.inj hp with rfl
          exact ⟨⟨he, hm⟩, Or.inl ⟨rfl, hq⟩⟩

/-- C6 witness: the amended characterization applied to an index holding the
key "a" with price 5, looked up with the exact-case name. -/
theorem C6_witness :
    (¬ ("a" : String) = "" ∧ isMarkerStr ("a") = false) ∧
    ((lookupPrice [(("a" : String), (5 : ℚ))] "a" = some 5 ∧ (5 : ℚ) ≠ 0) ∨
      ((lookupPrice [(("a" : String), (5 : ℚ))] "a" = none ∨
        lookupPrice [(("a" : String), (5 : ℚ))] "a" = some 0) ∧
        lookupPrice [(("a" : String), (5 : ℚ))] (lowerStr ("a")) = some 5)) :=
  (C6_price_of_amended [(("a" : String), (5 : ℚ))] "a").2 5 (by decide)

/-- Inserting a binding keeps every existing key. -/
theorem hasKey_insertPrice_of_hasKey (idx : PriceIndex) (k : String) (v : ℚ)
    (k2 : String) (h : hasKey idx k2 = true) :
    hasKey (insertPrice idx k v) k2 = true := by
  simp only [hasKey, insertPrice, List.any_cons, Bool.or_eq_true]
  exact Or.inr (by simpa [hasKey] using h)

/-- Inserting a binding makes its key present. -/
theorem hasKey_insertPrice_self (idx : PriceIndex) (k : String) (v : ℚ) :
    hasKey (insertPrice idx k v) k = true := by
  simp [hasKey, insertPrice]

/-- The double-insert fold of `build_name_to_price` never loses a key. -/
theorem hasKey_buildFold_of_hasKey (ps : List (String × ℚ)) :
    ∀ (idx : PriceIndex) (k : String), hasKey idx k = true →
      hasKey (ps.foldl
        (fun idx np => insertPrice (insertPrice idx np.1 np.2) (lowerStr np.1) np.2) idx)
        k = true := by
  induction ps with
  | nil => intro idx k h; simpa using h
  | cons p rest ih =>
    intro idx k h
    exact ih _ k (hasKey_insertPrice_of_hasKey _ _ _ _
      (hasKey_insertPrice_of_hasKey _ _ _ _ h))

/-- Every extracted pair ends up with both its original-case key and its
lowercased key present in the fold result. -/
theorem hasKey_buildFold_of_mem (ps : List (String × ℚ)) :
    ∀ (idx : PriceIndex) (n : String) (p : ℚ), (n, p) ∈ ps →
      hasKey (ps.foldl
        (fun idx np => insertPrice (insertPrice idx np.1 np.2) (lowerStr np.1) np.2) idx)
        n = true ∧
      hasKey (ps.foldl
        (fun idx np => insertPrice (insertPrice idx np.1 np.2) (lowerStr np.1) np.2) idx)
        (lowerStr n) = true := by
  induction ps with
  | nil => intro idx n p h; simp at h
  | cons q rest ih =>
    intro idx n p h
    rcases List.mem_cons.mp h with rfl | htail
    · constructor
      · exact hasKey_buildFold_of_hasKey rest _ n
          (hasKey_insertPrice_of_hasKey _ _ _ _ (hasKey_insertPrice_self _ _ _))
      · exact hasKey_buildFold_of_hasKey rest _ (lowerStr n)
          (hasKey_insertPrice_self _ _ _)
    · exact ih _ n p htail

/-- The price-dump example of the design document: a `data` container with
one entry whose `name` is `Ranarr potion(4)` and whose `price` is 100. -/
def c8Dump : JVal :=
  .obj [(("data" : String), .obj [(("123" : String), .obj
    [(("name" : String), .str ("Ranarr potion(4)")),
     (("price" : String), .num 100)])])]

/-- C8: every successfully extracted (name, price) pair is stored under both
the original-case name and the lowercased name, and on the worked example
dump the all-lowercase lookup `price_of(index, "ranarr potion(4)")` yields
100. -/
theorem C8_build_name_to_price :
    (∀ (dump : JVal) (n : String) (p : ℚ), (n, p) ∈ extractedPairs dump →
      hasKey (build_name_to_price dump) n = true ∧
      hasKey (build_name_to_price dump) (lowerStr n) = true) ∧
    price_of (build_name_to_price c8Dump) "ranarr potion(4)" = some 100 := by
  refine ⟨fun dump n p h => hasKey_buildFold_of_mem (extractedPairs dump) [] n p h, ?_⟩
  decide

/-- C8 witness: the storage property applied to the worked example dump and
its single extracted pair. -/
theorem C8_witness :
    hasKey (build_name_to_price c8Dump) "Ranarr potion(4)" = true ∧
    hasKey (build_name_to_price c8Dump) (lowerStr ("Ranarr potion(4)")) = true :=
  C8_build_name_to_price.1 c8Dump ("Ranarr potion(4)") 100 (by decide)

/-- Occurrence counts of the five structural reason strings in the
(duplicated) structural check block: two when the check fails, zero
otherwise. -/
theorem structuralReasons_count :
    ∀ a b c d e : Bool,
      (structuralReasons a b c d e).count Reason.invalidMaterialsListShape = cond a 2 0 ∧
      (structuralReasons a b c d e).count Reason.missingOutputItemName = cond b 2 0 ∧
      (structuralReasons a b c d e).count Reason.missingInvalidN = cond c 2 0 ∧
      (structuralReasons a b c d e).count Reason.missingInvalidXpPerCraft = cond d 2 0 ∧
      (structuralReasons a b c d e).count Reason.missingInvalidXpPerHour = cond e 2 0 := by
  decide

/-- The structural block is empty exactly when all five checks pass. -/
theorem structuralReasons_eq_nil :
    ∀ a b c d e : Bool,
      structuralReasons a b c d e = [] ↔
        a = false ∧ b = false ∧ c = false ∧ d = false ∧ e = false := by
  decide

/-- When some structural check failed, both scans are skipped and the
pre-economic reasons are exactly the structural ones. -/
theorem preEcon_eq_struct_of_ne (idx : PriceIndex) (r : Recipe)
    (h : structReasonsOf r ≠ []) : preEconReasons idx r = structReasonsOf r := by
  have h1 : (structReasonsOf r).isEmpty = false := by
    cases hs : structReasonsOf r with
    | nil => exact absurd hs h
    | cons x xs => rfl
  simp [preEconReasons, h1]

/-- With a pre-economic reason present, `compute_recipe` reports exactly the
pre-economic reasons. -/
theorem invalidReasons_of_preEcon_ne (idx : PriceIndex) (r : Recipe)
    (h : (preEconReasons idx r).isEmpty = false) :
    (compute_recipe idx r).invalidReasons = preEconReasons idx r := by
  simp [compute_recipe, h]

/-- C10: each structural check that fails (materials shape, output name,
`N`, `XP_per_craft`, `XP_per_hour`) contributes its reason string exactly
twice to the reasons list carried by the returned record, because the source
repeats the whole check block verbatim. -/
theorem C10_duplicated_structural_reasons (idx : PriceIndex) (r : Recipe) :
    (shapeBadOf r = true →
      (compute_recipe idx r).invalidReasons.count Reason.invalidMaterialsListShape = 2) ∧
    (outBadOf r = true →
      (compute_recipe idx r).invalidReasons.count Reason.missingOutputItemName = 2) ∧
    (nBadOf r = true →
      (compute_recipe idx r).invalidReasons.count Reason.missingInvalidN = 2) ∧
    (xpcBadOf r = true →
      (compute_recipe idx r).invalidReasons.count Reason.missingInvalidXpPerCraft = 2) ∧
    (xphBadOf r = true →
      (compute_recipe idx r).invalidReasons.count Reason.missingInvalidXpPerHour = 2) := by
  have hc := structuralReasons_count (shapeBadOf r) (outBadOf r) (nBadOf r)
    (xpcBadOf r) (xphBadOf r)
  have hn := structuralReasons_eq_nil (shapeBadOf r) (outBadOf r) (nBadOf r)
    (xpcBadOf r) (xphBadOf r)
  have main : ∀ flag : Bool, flag = true →
      (shapeBadOf r = flag ∨ outBadOf r = flag ∨ nBadOf r = flag ∨
        xpcBadOf r = flag ∨ xphBadOf r = flag) →
      (compute_recipe idx r).invalidReasons = structReasonsOf r := by
    intro flag hflag hsome
    have hne : structReasonsOf r ≠ [] := by
      intro h0
      have := hn.mp h0
      subst hflag
      rcases hsome with h | h | h | h | h <;> simp_all
    have hpre := preEcon_eq_struct_of_ne idx r hne
    have hpe : (preEconReasons idx r).isEmpty = false := by
      rw [hpre]
      cases hs : structReasonsOf r with
      | nil => exact absurd hs hne
      | cons x xs => rfl
    rw [invalidReasons_of_preEcon_ne idx r hpe, hpre]
  refine ⟨fun h => ?_, fun h => ?_, fun h => ?_, fun h => ?_, fun h => ?_⟩
  · rw [main true rfl (Or.inl h), structReasonsOf, hc.1, h]; rfl
  · rw [main true rfl (Or.inr (Or.inl h)), structReasonsOf, hc.2.1, h]; rfl
  · rw [main true rfl (Or.inr (Or.inr (Or.inl h))), structReasonsOf, hc.2.2.1, h]; rfl
  · rw [main true rfl (Or.inr (Or.inr (Or.inr (Or.inl h)))), structReasonsOf, hc.2.2.2.1, h]; rfl
  · rw [main true rfl (Or.inr (Or.inr (Or.inr (Or.inr h)))), structReasonsOf, hc.2.2.2.2, h]; rfl

/-- A recipe failing all five structural checks: truthy non-list materials
field, marker output name, null `N` and XP fields. -/
def c10Recipe : Recipe :=
  { baseMaterials := .badShape
    outputItemName := some ("__MISSING__potion")
    nRaw := .null
    xpPerCraftRaw := .null
    xpPerHourRaw := .null }

/-- C10 witness: on `c10Recipe` the shape reason and the output-name reason
each occur exactly twice in the returned reasons list. -/
theorem C10_witness :
    (compute_recipe [] c10Recipe).invalidReasons.count
      Reason.invalidMaterialsListShape = 2 ∧
    (compute_recipe [] c10Recipe).invalidReasons.count
      Reason.missingOutputItemName = 2 :=
  ⟨(C10_duplicated_structural_reasons [] c10Recipe).1 (by decide),
   (C10_duplicated_structural_reasons [] c10Recipe).2.1 (by decide)⟩

/-- C1: for every price index and recipe, the returned validity flag is true
exactly when the accumulated reasons list is empty, and whenever any reason
was accumulated the three derived economic fields (crafts-per-hour,
profit-per-craft, gp-per-hour) are absent — `none`, not zero. -/
theorem C1_validity_invariant (idx : PriceIndex) (r : Recipe) :
    ((compute_recipe idx r).valid = true ↔ (compute_recipe idx r).invalidReasons = []) ∧
    ((compute_recipe idx r).invalidReasons ≠ [] →
      (compute_recipe idx r).valid = false ∧
      (compute_recipe idx r).craftsPerHour = none ∧
      (compute_recipe idx r).profitPerCraft = none ∧
      (compute_recipe idx r).gpPerHour = none) := by
  by_cases h : (preEconReasons idx r).isEmpty
  · simp only [compute_recipe, if_pos h]
    by_cases h2 : (econReasons idx r).isEmpty
    · constructor
      · simp [List.isEmpty_iff.mp h2]
      · intro hne
        exact absurd (List.isEmpty_iff.mp h2) hne
    · have hf : (econReasons idx r).isEmpty = false := Bool.eq_false_iff.mpr h2
      constructor
      · simp [hf, List.isEmpty_iff.not.mp h2]
      · intro _
        simp [hf, craftsOf, profitOf, gpOf, List.isEmpty_iff.not.mp h2]
  · have hne : preEconReasons idx r ≠ [] := by
      intro h0
      exact h (by simp [h0])
    constructor
    · simp [compute_recipe, if_neg h, hne]
    · intro _
      simp [compute_recipe, hne]

/-- C1 witness: a recipe with every field missing accumulates reasons, and
the theorem yields the invalid flag and the three absent fields there. -/
theorem C1_witness :
    (compute_recipe [] ({} : Recipe)).invalidReasons ≠ [] ∧
    ((compute_recipe [] ({} : Recipe)).valid = false ∧
      (compute_recipe [] ({} : Recipe)).craftsPerHour = none ∧
      (compute_recipe [] ({} : Recipe)).profitPerCraft = none ∧
      (compute_recipe [] ({} : Recipe)).gpPerHour = none) :=
  ⟨by decide, (C1_validity_invariant [] ({} : Recipe)).2 (by decide)⟩

/-- If zero pre-economic reasons survive, the structural block was empty. -/
theorem struct_nil_of_preEcon_nil (idx : PriceIndex) (r : Recipe)
    (h : preEconReasons idx r = []) : structReasonsOf r = [] := by
  by_cases h1 : structReasonsOf r = []
  · exact h1
  · exact absurd (preEcon_eq_struct_of_ne idx r h1 ▸ h) h1

/-- A valid evaluation always carries concrete gp-per-hour and XP-per-hour
values. -/
theorem valid_imp_some (idx : PriceIndex) (r : Recipe)
    (h : (compute_recipe idx r).valid = true) :
    (∃ g, (compute_recipe idx r).gpPerHour = some g) ∧
    (∃ x, (compute_recipe idx r).xpPerHour = some x) := by
  by_cases hp : (preEconReasons idx r).isEmpty
  · have hecon : (econReasons idx r).isEmpty = true := by
      by_cases h2 : (econReasons idx r).isEmpty
      · exact h2
      · rw [compute_recipe, if_pos hp] at h
        exact absurd h (by simp [h2])
    have hxbad : xphBadOf r = false :=
      ((structuralReasons_eq_nil _ _ _ _ _).mp
        (struct_nil_of_preEcon_nil idx r (List.isEmpty_iff.mp hp))).2.2.2.2
    have hx : ∃ x, xphOf r = some x := by
      unfold xphBadOf at hxbad
      cases hv : xphOf r with
      | none => rw [hv] at hxbad; exact absurd hxbad (by simp)
      | some x => exact ⟨x, rfl⟩
    rw [compute_recipe, if_pos hp]
    exact ⟨⟨(profitOf idx r).getD 0 * (craftsOf idx r).getD 0,
      by simp [gpOf, List.isEmpty_iff.mp hecon]⟩, hx⟩
  · rw [compute_recipe, if_neg hp] at h
    exact absurd h (by simp)

/-- The source alert computation agrees with the predicate of the design document
on any record. -/
theorem alertOf_eq_claimAlert (e : EvaluatedRecipe) :
    alertOf e.valid e.gpPerHour e.xpPerHour = claimAlert e := by
  cases hv : e.valid <;> cases hg : e.gpPerHour <;> cases hx : e.xpPerHour <;>
    simp [alertOf, claimAlert, hv, hg, hx]

/-- The alert flag in the result record is the alert computation applied to
the validity, gp/h and XP/h fields of the record itself. -/
theorem isAlert_eq_alertOf (idx : PriceIndex) (r : Recipe) :
    (compute_recipe idx r).isAlert =
      alertOf (compute_recipe idx r).valid (compute_recipe idx r).gpPerHour
        (compute_recipe idx r).xpPerHour := by
  by_cases h : (preEconReasons idx r).isEmpty
  · rw [compute_recipe, if_pos h]
  · rw [compute_recipe, if_neg h]

/-- On evaluated recipes, the TABLE B filter coincides with the design
alert predicate of the design document. -/
theorem tableBKeep_eq_claimAlert (idx : PriceIndex) (r : Recipe) :
    tableBKeep (compute_recipe idx r) = claimAlert (compute_recipe idx r) := by
  cases hv : (compute_recipe idx r).valid with
  | false => simp [tableBKeep, claimAlert, hv]
  | true =>
    obtain ⟨⟨g, hg⟩, ⟨x, hx⟩⟩ := valid_imp_some idx r hv
    simp [tableBKeep, claimAlert, hv, hg, hx]

/-- C3: the alert flag of every evaluated recipe is true iff the recipe is valid
and its gp-per-hour exceeds 3,000,000 and its XP-per-hour exceeds 250,000;
and TABLE B is exactly the subset of TABLE A satisfying that predicate, in
the order of TABLE A. -/
theorem C3_alert_and_tableB (idx : PriceIndex) (recipes : List Recipe) :
    (∀ e ∈ recipes.map (compute_recipe idx), e.isAlert = claimAlert e) ∧
    table_b (table_a (recipes.map (compute_recipe idx))) =
      (table_a (recipes.map (compute_recipe idx))).filter claimAlert := by
  constructor
  · intro e he
    obtain ⟨r, _, rfl⟩ := List.mem_map.mp he
    rw [isAlert_eq_alertOf, alertOf_eq_claimAlert]
  · rw [table_b]
    refine List.filter_congr fun e he => ?_
    obtain ⟨r, _, rfl⟩ :=
      List.mem_map.mp ((List.mem_insertionSort keyGE).mp (by simpa [table_a] using he))
    exact tableBKeep_eq_claimAlert idx r

/-- C3 witness: the alert characterization applied to the worked example
recipe (valid, but with negative profit, hence no alert). -/
theorem C3_witness :
    (compute_recipe c2Index c2Recipe).isAlert = claimAlert (compute_recipe c2Index c2Recipe) :=
  (C3_alert_and_tableB c2Index [c2Recipe]).1 (compute_recipe c2Index c2Recipe)
    (List.mem_map_of_mem (compute_recipe c2Index) (List.mem_singleton_self c2Recipe))

/-- Invalid rows sort with key `-inf`. -/
theorem sort_key_of_invalid (e : EvaluatedRecipe) (h : e.valid = false) :
    sort_key e = ⊥ := by
  simp [sort_key, h]

/-- Valid rows with a numeric gp/h sort with that value as key. -/
theorem sort_key_of_valid_some (e : EvaluatedRecipe) (g : ℚ) (hv : e.valid = true)
    (hg : e.gpPerHour = some g) : sort_key e = (g : WithBot ℚ) := by
  simp [sort_key, hv, hg]

/-- Stability: the invalid rows of TABLE A are the invalid rows of the
evaluated catalog, in the same order. -/
theorem filter_invalid_table_a (idx : PriceIndex) (recipes : List Recipe) :
    (table_a (recipes.map (compute_recipe idx))).filter (fun e => !e.valid) =
      (recipes.map (compute_recipe idx)).filter (fun e => !e.valid) := by
  have hpair : ((recipes.map (compute_recipe idx)).filter
      (fun e => !e.valid)).Pairwise keyGE := by
    refine List.pairwise_of_forall_mem_list fun a ha b hb => ?_
    have hva : a.valid = false := by simpa using (List.mem_filter.mp ha).2
    have hvb : b.valid = false := by simpa using (List.mem_filter.mp hb).2
    rw [keyGE, sort_key_of_invalid a hva, sort_key_of_invalid b hvb]
  have hsub : List.Sublist ((recipes.map (compute_recipe idx)).filter (fun e => !e.valid))
      (table_a (recipes.map (compute_recipe idx))) :=
    List.sublist_insertionSort hpair (List.filter_sublist _)
  have hfil : (((recipes.map (compute_recipe idx)).filter
      (fun e => !e.valid)).filter (fun e => !e.valid)) =
      (recipes.map (compute_recipe idx)).filter (fun e => !e.valid) :=
    List.filter_eq_self.mpr fun a ha => (List.mem_filter.mp ha).2
  have hsub2 : List.Sublist ((recipes.map (compute_recipe idx)).filter (fun e => !e.valid))
      ((table_a (recipes.map (compute_recipe idx))).filter (fun e => !e.valid)) := by
    have := hsub.filter (fun e => !e.valid)
    rwa [hfil] at this
  have hperm : List.Perm
      ((table_a (recipes.map (compute_recipe idx))).filter (fun e => !e.valid))
      ((recipes.map (compute_recipe idx)).filter (fun e => !e.valid)) :=
    (List.perm_insertionSort keyGE _).filter _
  exact (hsub2.eq_of_length hperm.length_eq.symm).symm

/-- C4: in TABLE A, valid rows appear in non-increasing gp/h order, every
invalid row comes after every valid row, and the invalid rows keep their
original (post-exclusion) relative order. -/
theorem C4_tableA_order (idx : PriceIndex) (recipes : List Recipe) :
    (∀ i j (hi : i < (table_a (recipes.map (compute_recipe idx))).length)
        (hj : j < (table_a (recipes.map (compute_recipe idx))).length), i < j →
      (∀ gi gj : ℚ,
        ((table_a (recipes.map (compute_recipe idx))).get ⟨i, hi⟩).valid = true →
        ((table_a (recipes.map (compute_recipe idx))).get ⟨j, hj⟩).valid = true →
        ((table_a (recipes.map (compute_recipe idx))).get ⟨i, hi⟩).gpPerHour = some gi →
        ((table_a (recipes.map (compute_recipe idx))).get ⟨j, hj⟩).gpPerHour = some gj →
        gj ≤ gi) ∧
      (((table_a (recipes.map (compute_recipe idx))).get ⟨i, hi⟩).valid = false →
        ((table_a (recipes.map (compute_recipe idx))).get ⟨j, hj⟩).valid = false)) ∧
    (table_a (recipes.map (compute_recipe idx))).filter (fun e => !e.valid) =
      (recipes.map (compute_recipe idx)).filter (fun e => !e.valid) := by
  constructor
  · intro i j hi hj hij
    have hsorted : (table_a (recipes.map (compute_recipe idx))).Sorted keyGE :=
      List.sorted_insertionSort keyGE _
    have hrel := hsorted.rel_get_of_lt
      (a := ⟨i, hi⟩) (b := ⟨j, hj⟩) (Fin.mk_lt_mk.mpr hij)
    constructor
    · intro gi gj hvi hvj hgi hgj
      have h1 : sort_key ((table_a (recipes.map (compute_recipe idx))).get ⟨j, hj⟩) ≤
          sort_key ((table_a (recipes.map (compute_recipe idx))).get ⟨i, hi⟩) := hrel
      rw [sort_key_of_valid_some _ gi hvi hgi, sort_key_of_valid_some _ gj hvj hgj] at h1
      exact_mod_cast h1
    · intro hvi
      by_contra hvj
      have hvj' : ((table_a (recipes.map (compute_recipe idx))).get ⟨j, hj⟩).valid = true := by
        rcases Bool.eq_false_or_eq_true
          ((table_a (recipes.map (compute_recipe idx))).get ⟨j, hj⟩).valid with h | h
        · exact h
        · exact absurd h hvj
      have hmem : (table_a (recipes.map (compute_recipe idx))).get ⟨j, hj⟩ ∈
          recipes.map (compute_recipe idx) := by
        have hg0 := List.get_mem (table_a (recipes.map (compute_recipe idx))) j hj
        exact (List.mem_insertionSort keyGE).mp hg0
      obtain ⟨r, _, hre⟩ := List.mem_map.mp hmem
      obtain ⟨⟨g, hg⟩, _⟩ := valid_imp_some idx r (by rw [hre]; exact hvj')
      have h1 : sort_key ((table_a (recipes.map (compute_recipe idx))).get ⟨j, hj⟩) ≤
          sort_key ((table_a (recipes.map (compute_recipe idx))).get ⟨i, hi⟩) := hrel
      rw [sort_key_of_invalid _ hvi,
        sort_key_of_valid_some _ g hvj' (by rw [← hre]; exact hg)] at h1
      simp at h1
  · exact filter_invalid_table_a idx recipes

/-- C4 witness: two invalid recipes (all fields missing; `N = 0`) — the
second stays invalid behind the first, and the invalid rows of TABLE A equal
the evaluated list itself. -/
theorem C4_witness :
    ((table_a ([({} : Recipe), { nRaw := .num 0 }].map (compute_recipe []))).get
      ⟨1, by decide⟩).valid = false ∧
    (table_a ([({} : Recipe), { nRaw := .num 0 }].map (compute_recipe []))).filter
        (fun e => !e.valid) =
      ([({} : Recipe), { nRaw := .num 0 }].map (compute_recipe [])).filter
        (fun e => !e.valid) :=
  ⟨((C4_tableA_order [] [({} : Recipe), { nRaw := .num 0 }]).1 0 1 (by decide) (by decide)
      (by decide)).2 (by decide),
   (C4_tableA_order [] [({} : Recipe), { nRaw := .num 0 }]).2⟩

/-- C9: evaluation of the delivery model at the failing input.  A first
response of HTTP 429 with `retry_after = 1` is retried exactly once after
sleeping `max(1, ceil(1)) = 1`, but the failure response of the retry (HTTP
500) is raised uncaught and the run aborts — contradicting the claim (and
the source comment "Do not crash the whole scheduler on Discord errors")
that every non-rate-limit failure response is logged and the run still
completes successfully.  A non-429 failure on the first attempt is indeed
logged and leaves the run successful, and a fractional server delay is
rounded up. -/
theorem C9_retry_crash :
    post_chunk (.httpError 429 (some 1)) (.httpError 500 none) =
      ⟨2, some 1, .crashed⟩ ∧
    runSucceeds ChunkOutcome.crashed = false ∧
    post_chunk (.httpError 403 none) .success = ⟨1, none, .loggedSkip⟩ ∧
    runSucceeds ChunkOutcome.loggedSkip = true ∧
    retryDelay (some (3.2 : ℚ)) = 4 ∧ retryDelay none = 2 := by
  decide

end Scheduler
